import Mathlib

namespace Monitor

/-- Association-list model of a Python `dict` (first match wins; `dictSet`
replaces in place or appends, matching insertion-order-preserving updates). -/
def dictGet? {κ α : Type} [DecidableEq κ] : List (κ × α) → κ → Option α
  | [], _ => none
  | (k, v) :: rest, key => if k = key then some v else dictGet? rest key

def dictSet {κ α : Type} [DecidableEq κ] : List (κ × α) → κ → α → List (κ × α)
  | [], key, val => [(key, val)]
  | (k, v) :: rest, key, val =>
      if k = key then (key, val) :: rest else (k, v) :: dictSet rest key val

/-- Python `str.lower` on the ASCII range (addresses and hex strings are ASCII). -/
def lowerChar (c : Char) : Char :=
  if 'A' ≤ c ∧ c ≤ 'Z' then Char.ofNat (c.toNat + 32) else c

def pyLower (s : String) : String := String.mk (s.data.map lowerChar)

/-- Python `len(s)` (character count). -/
def pyLen (s : String) : Nat := s.data.length

/-- Python `s.startswith(pre)`. -/
def pyStartsWith (s pre : String) : Bool :=
  decide (s.data.take pre.data.length = pre.data)

/-- Python `s[-n:]` for `n > 0`. -/
def pyTakeRight (s : String) (n : Nat) : String :=
  String.mk (s.data.drop (s.data.length - n))

/-- Python `s[:n]` for `n ≥ 0`. -/
def pyTake (s : String) (n : Nat) : String := String.mk (s.data.take n)

def hexDigit? (c : Char) : Option Nat :=
  if '0' ≤ c ∧ c ≤ '9' then some (c.toNat - '0'.toNat)
  else if 'a' ≤ c ∧ c ≤ 'f' then some (c.toNat - 'a'.toNat + 10)
  else if 'A' ≤ c ∧ c ≤ 'F' then some (c.toNat - 'A'.toNat + 10)
  else none

def hexNat? : List Char → Option Nat
  | [] => none
  | cs => cs.foldl (fun acc c => acc.bind (fun a => (hexDigit? c).map (fun d => a * 16 + d)))
            (some 0)

/-- Python `int(x, 16)` on the inputs this code feeds it: an optional `0x`/`0X`
prefix followed by at least one hex digit; `none` models the `ValueError`. -/
def pyIntHex? (s : String) : Option Nat :=
  let cs := s.data
  let body :=
    match cs with
    | '0' :: 'x' :: rest => rest
    | '0' :: 'X' :: rest => rest
    | other => other
  hexNat? body

/-! ## TokenMeta (src/src/token_metadata.py)

`TokenMeta.decimals` and `TokenMeta.symbol` are async methods whose only
side effects are one optional `eth_call` and a cache write.  Each is embedded
as a pure step function over its cache: the `rpc : Option String` argument is
the outcome of `self.rpc.request(...)` (`none` models the call raising, which
the method's `try`/`except` turns into the fallback value). -/

def bytesFromHex? (s : String) : Option (List Nat) :=
  let rec go : List Char → Option (List Nat)
    | [] => some []
    | [_] => none
    | c1 :: c2 :: rest =>
        match hexDigit? c1, hexDigit? c2 with
        | some d1, some d2 => (go rest).map (fun bs => (d1 * 16 + d2) :: bs)
        | _, _ => none
  go s.data

/-- Big-endian `int.from_bytes(bs, "big")`. -/
def natFromBytes (bs : List Nat) : Nat := bs.foldl (fun a b => a * 256 + b) 0

/-- `bytes.decode(errors="ignore")` restricted to the ASCII fragment: bytes
below 0x80 decode to themselves, all others are dropped.  The repository only
feeds this printable ASCII token symbols. -/
def decodeIgnore (bs : List Nat) : String :=
  String.mk (bs.filterMap (fun b => if b < 128 then some (Char.ofNat b) else none))

/-- Python `s.strip("\x00")`. -/
def stripNulChars (s : String) : String :=
  String.mk (((s.data.dropWhile (fun c => c = '\x00')).reverse.dropWhile
    (fun c => c = '\x00')).reverse)

/-- Python `bs.rstrip(b"\x00")`. -/
def rstripNulBytes (bs : List Nat) : List Nat :=
  (bs.reverse.dropWhile (fun b => b = 0)).reverse

/-- One call of `TokenMeta.decimals(token)`: returns the result and the updated
`decimals_cache`.  Mirrors src/src/token_metadata.py lines 20-36. -/
def decimalsStep (cache : List (String × Nat)) (token : String) (rpc : Option String) :
    Nat × List (String × Nat) :=
  let token := pyLower token
  match dictGet? cache token with
  | some d => (d, cache)
  | none =>
      let d : Nat :=
        match rpc with
        | none => 18
        | some raw =>
            if pyStartsWith raw "0x" ∧ pyLen raw ≥ 2 + 64 then
              match pyIntHex? (pyTakeRight raw 64) with
              | some val => if val ≤ 36 then val else 18
              | none => 18
            else 18
      (d, dictSet cache token d)

/-- The pure parsing part of `TokenMeta.symbol`: ABI dynamic-string layout
first, legacy fixed `bytes32` otherwise, `"UNKNOWN"` on any failure. -/
def parseSymbolResponse (rpc : Option String) : String :=
  match rpc with
  | none => "UNKNOWN"
  | some raw =>
      if pyStartsWith raw "0x" then
        match bytesFromHex? (String.mk (raw.data.drop 2)) with
        | none => "UNKNOWN"
        | some data =>
            if data.length ≥ 64 then
              let offset := natFromBytes (data.take 32)
              if 0 < offset ∧ offset < data.length then
                let strlen := natFromBytes ((data.drop offset).take 32)
                let sbytes := (data.drop (offset + 32)).take strlen
                let s := stripNulChars (decodeIgnore sbytes)
                if s = "" then "UNKNOWN" else s
              else
                let s := decodeIgnore (rstripNulBytes (data.take 32))
                if s = "" then "UNKNOWN" else s
            else "UNKNOWN"
      else "UNKNOWN"

/-- One call of `TokenMeta.symbol(token)`: returns the result and the updated
`symbol_cache`.  Mirrors src/src/token_metadata.py lines 38-61. -/
def symbolStep (cache : List (String × String)) (token : String) (rpc : Option String) :
    String × List (String × String) :=
  let token := pyLower token
  match dictGet? cache token with
  | some s => (s, cache)
  | none =>
      let sym := parseSymbolResponse rpc
      (sym, dictSet cache token sym)

/-! ## Hot wallet monitor (src/src/monitors/hot_wallet_monitor.py)

Timestamps of blocks/records/events are `Int` (unix seconds); wall-clock
timestamps and token amounts/thresholds are `ℚ` (Python floats; no claim here
depends on binary floating-point rounding). -/

def transferTopic : String :=
  "0xddf252ad1be2c89b69c2b068fc378daa952ba7f163c4a11628f55a4df523b3ef"

def WINDOWS : List Int := [60, 300]

/-- `safe_checksum` (lines 25-31): `not addr` is true for `None` and `""`. -/
def safeChecksum (addr : Option String) : Option String :=
  match addr with
  | none => none
  | some a =>
      if a = "" ∨ a = "0x" ∨ a = "0x0" ∨ a = "0x0000" then none
      else if pyStartsWith a "0x" ∧ pyLen a = 42 then some a
      else none

/-- `short` (lines 34-38). -/
def short (addr : Option String) : String :=
  match addr with
  | none => "None"
  | some a => if a = "" then "None" else pyTake a 6 ++ "..." ++ pyTakeRight a 4

/-- `topic_to_address` (lines 46-50). -/
def topicToAddress (topicHex : String) : Option String :=
  if pyStartsWith topicHex "0x" ∧ pyLen topicHex = 66 then
    some ("0x" ++ pyTakeRight topicHex 40)
  else none

structure TxRecord where
  ts : Int
  txHash : String
  frm : String
  toAddr : Option String
  tokenAmounts : List (String × ℚ)
deriving DecidableEq

structure TransferEvent where
  ts : Int
  sender : String
  receiver : String
  token : String
  amount : ℚ
deriving DecidableEq

/-- `ContractWindowState`: one deque of records and one of events per window. -/
structure ContractWindowState where
  recordsByWindow : List (Int × List TxRecord)
  transferEventsByWindow : List (Int × List TransferEvent)
deriving DecidableEq

def ContractWindowState.init : ContractWindowState :=
  { recordsByWindow := WINDOWS.map (fun w => (w, []))
    transferEventsByWindow := WINDOWS.map (fun w => (w, [])) }

/-- The per-contract effect of `add_tx_and_events` (lines 152-159): the record
is appended to every window's record deque and the events, in order, to every
window's event deque.  (The state's keys are always exactly `WINDOWS`.) -/
def ContractWindowState.addOne (s : ContractWindowState) (rec : TxRecord)
    (evs : List TransferEvent) : ContractWindowState :=
  { recordsByWindow := s.recordsByWindow.map (fun p => (p.1, p.2 ++ [rec]))
    transferEventsByWindow := s.transferEventsByWindow.map (fun p => (p.1, p.2 ++ evs)) }

/-- `prune_old` (lines 142-150): pop from the front of each deque while the
front entry satisfies `ts <= current_ts - w`. -/
def ContractWindowState.pruneOld (s : ContractWindowState) (t : Int) : ContractWindowState :=
  { recordsByWindow :=
      s.recordsByWindow.map (fun p => (p.1, p.2.dropWhile (fun r => decide (r.ts ≤ t - p.1))))
    transferEventsByWindow :=
      s.transferEventsByWindow.map (fun p => (p.1, p.2.dropWhile (fun e => decide (e.ts ≤ t - p.1)))) }

/-- Window-`w` record deque of a state (the keys are always `WINDOWS`). -/
def recordsFor (s : ContractWindowState) (w : Int) : List TxRecord :=
  (dictGet? s.recordsByWindow w).getD []

def eventsFor (s : ContractWindowState) (w : Int) : List TransferEvent :=
  (dictGet? s.transferEventsByWindow w).getD []

/-- Folding a sequence of `add` calls (each one record plus its events). -/
def applyAdds (s : ContractWindowState) (calls : List (TxRecord × List TransferEvent)) :
    ContractWindowState :=
  calls.foldl (fun st c => st.addOne c.1 c.2) s

/-- `AccumulatedSenderReceiverDetector`'s claim-relevant state.  The
notification callback and rpc handle are passed to the operations that use
them rather than stored, keeping the state first-order data. -/
structure DetectorState where
  tokenThresholds : List (String × ℚ)
  alertCooldownSeconds : ℚ
  contractState : List (String × ContractWindowState)
  alertCooldowns : List (String × ℚ)
deriving DecidableEq

/-- `__init__` lowercases the threshold keys (line 88). -/
def initThresholds (l : List (String × ℚ)) : List (String × ℚ) :=
  l.map (fun p => (pyLower p.1, p.2))

/-- `is_token_monitored` (lines 97-99). -/
def isTokenMonitored (thr : List (String × ℚ)) (token : String) : Bool :=
  (dictGet? thr (pyLower token)).isSome

/-- `whale_threshold_for` (lines 101-103). -/
def whaleThresholdFor (thr : List (String × ℚ)) (token : String) : Option ℚ :=
  dictGet? thr (pyLower token)

/-- `is_in_cooldown` (lines 120-134). -/
def isInCooldown (d : DetectorState) (contract : String) (currentTs : ℚ) : Bool :=
  match dictGet? d.alertCooldowns (pyLower contract) with
  | none => false
  | some lastAlertTime => decide (currentTs - lastAlertTime < d.alertCooldownSeconds)

/-- `set_alert_cooldown` (lines 136-140). -/
def setAlertCooldown (d : DetectorState) (contract : String) (currentTs : ℚ) : DetectorState :=
  { d with alertCooldowns := dictSet d.alertCooldowns (pyLower contract) currentTs }

/-- `self.contract_state[contract]` with `defaultdict(ContractWindowState)`. -/
def getState (d : DetectorState) (contract : String) : ContractWindowState :=
  (dictGet? d.contractState contract).getD ContractWindowState.init

/-- `add_tx_and_events` (lines 152-159); contract key used verbatim. -/
def addTxAndEvents (d : DetectorState) (contract : String) (rec : TxRecord)
    (evs : List TransferEvent) : DetectorState :=
  { d with contractState := dictSet d.contractState contract ((getState d contract).addOne rec evs) }

inductive Role where
  | sender
  | receiver
deriving DecidableEq

/-- The role strings `"sender"`/`"receiver"` used in the breach tuples. -/
def roleName : Role → String
  | Role.sender => "sender"
  | Role.receiver => "receiver"

/-- Sort key reproducing the lexicographic order of the role strings
(`"receiver" < "sender"`). -/
def roleKey : Role → Nat
  | Role.receiver => 0
  | Role.sender => 1

/-- A breach tuple `(role, address, token, accumulated_amount, threshold)`. -/
abbrev Exceed := Role × String × String × ℚ × ℚ

/-- Nested-defaultdict accumulation map `addr -> token -> amount`. -/
abbrev SumMap := List (String × List (String × ℚ))

def dictGet2? (m : SumMap) (a tok : String) : Option ℚ :=
  match dictGet? m a with
  | some inner => dictGet? inner tok
  | none => none

/-- `sums[addr][token] += amt` on a nested `defaultdict(lambda: defaultdict(float))`. -/
def bumpAmt (m : SumMap) (a tok : String) (amt : ℚ) : SumMap :=
  let inner := (dictGet? m a).getD []
  dictSet m a (dictSet inner tok (((dictGet? inner tok).getD 0) + amt))

/-- The single pass over a window's event deque building `sender_sums` and
`receiver_sums` (lines 171-175): unmonitored tokens are skipped. -/
def accumulate (thr : List (String × ℚ)) (evs : List TransferEvent) : SumMap × SumMap :=
  evs.foldl
    (fun p ev =>
      if isTokenMonitored thr ev.token then
        (bumpAmt p.1 ev.sender ev.token ev.amount, bumpAmt p.2 ev.receiver ev.token ev.amount)
      else p)
    ([], [])

/-- The breach scan over one sums map (lines 177-188): emit a tuple whenever a
threshold is configured for the token and the accumulated amount reaches it. -/
def exceedsOf (thr : List (String × ℚ)) (role : Role) (sums : SumMap) : List Exceed :=
  sums.flatMap (fun p =>
    p.2.filterMap (fun q =>
      match whaleThresholdFor thr q.1 with
      | some θ => if θ ≤ q.2 then some (role, p.1, q.1, q.2, θ) else none
      | none => none))

/-- One window's entry of `compute_sender_receiver_accumulated`'s output. -/
structure WindowOut where
  senderSums : SumMap
  receiverSums : SumMap
  exceeds : List Exceed
deriving DecidableEq

def windowOut (thr : List (String × ℚ)) (evs : List TransferEvent) : WindowOut :=
  let sums := accumulate thr evs
  { senderSums := sums.1
    receiverSums := sums.2
    exceeds := exceedsOf thr Role.sender sums.1 ++ exceedsOf thr Role.receiver sums.2 }

/-- `compute_sender_receiver_accumulated` (lines 161-195).  The defaultdict
access plus in-place `prune_old` store the pruned state back under `contract`;
the per-window breakdown is computed from the pruned event deques. -/
def computeSenderReceiverAccumulated (d : DetectorState) (contract : String) (currentTs : Int) :
    DetectorState × List (Int × WindowOut) :=
  let st := (getState d contract).pruneOld currentTs
  ({ d with contractState := dictSet d.contractState contract st },
   WINDOWS.map (fun w => (w, windowOut d.tokenThresholds (eventsFor st w))))

/-- `winstats.get(w, {}).get("exceeds", [])` flattened into `(w, tuple)` hits
(lines 199-202). -/
def alertHits (winstats : List (Int × WindowOut)) : List (Int × Exceed) :=
  WINDOWS.flatMap (fun w =>
    ((dictGet? winstats w).map WindowOut.exceeds).getD [] |>.map (fun e => (w, e)))

/-- One formatted alert line; `symbolOf` is the resolved `meta.symbol` lookup
(total: `TokenMeta.symbol` never raises, see `symbolStep`).  Numeric display
formatting is plain `toString` rather than Python's grouped `%,.4f`. -/
def formatLine (symbolOf : String → String) (h : Int × Exceed) : String :=
  "- " ++ toString h.1 ++ "s: " ++ roleName h.2.1 ++ "=" ++ short (some h.2.2.1) ++
    " token=" ++ symbolOf h.2.2.2.1 ++ "(" ++ short (some h.2.2.2.1) ++ ") window_sum=" ++
    toString h.2.2.2.2.1 ++ " thr=" ++ toString h.2.2.2.2.2

/-- The alert message of lines 213-218: hits sorted by `(window, role)`,
capped to the first 12. -/
def formatMsg (symbolOf : String → String) (contract : String) (hits : List (Int × Exceed)) :
    String :=
  let sortedHits := hits.mergeSort (fun x y =>
    decide (x.1 < y.1 ∨ (x.1 = y.1 ∧ roleKey x.2.1 ≤ roleKey y.2.1)))
  "Hot Wallet Alert - Contract " ++ contract ++ "\n" ++
    String.intercalate "\n" ((sortedHits.take 12).map (formatLine symbolOf))

/-- `maybe_alert` (lines 197-228).  `cb` is `self.notification_callback`
(`none` when absent); its `Except` result models normal return vs raising.
The returned `Bool` records whether the callback was invoked.  The dispatch
call and the cooldown update sit inside `try`/`except`, so a callback failure
is swallowed and leaves the state unchanged. -/
def maybeAlert {E : Type} (cb : Option (String → Except E Unit)) (symbolOf : String → String)
    (d : DetectorState) (contract : String) (winstats : List (Int × WindowOut))
    (currentTs : ℚ) : Except E (DetectorState × Bool) :=
  let hits := alertHits winstats
  if hits.isEmpty then Except.ok (d, false)
  else if isInCooldown d contract currentTs then Except.ok (d, false)
  else
    let msg := formatMsg symbolOf contract hits
    match cb with
    | none => Except.ok (d, false)
    | some f =>
        match f msg with
        | Except.ok _ => Except.ok (setAlertCooldown d contract currentTs, true)
        | Except.error _ => Except.ok (d, true)

/-- One receipt log entry; `data` is `log.get("data", "0x")` with `none` for a
missing key. -/
structure LogEntry where
  address : Option String
  topics : List String
  data : Option String
deriving DecidableEq

/-- The per-log body of `parse_transfer_events` (lines 230-259).  `decimalsOf`
is the resolved `meta.decimals` lookup (total: `TokenMeta.decimals` never
raises, see `decimalsStep`).  `none` both for the filters' `continue` and for
the caught per-log exception (a `ValueError` from `int(data_field, 16)`). -/
def parseLog (thr : List (String × ℚ)) (decimalsOf : String → Nat) (log : LogEntry) :
    Option TransferEvent :=
  match log.topics with
  | [] => none
  | t0 :: _ =>
      if t0 ≠ transferTopic then none
      else
        match safeChecksum log.address with
        | none => none
        | some token =>
            if ¬ isTokenMonitored thr token then none
            else
              let sender0 := match log.topics[1]? with
                | some t => topicToAddress t
                | none => none
              let receiver0 := match log.topics[2]? with
                | some t => topicToAddress t
                | none => none
              match safeChecksum sender0, safeChecksum receiver0 with
              | some sender, some receiver =>
                  match pyIntHex? ((log.data).getD "0x") with
                  | none => none
                  | some amountRaw =>
                      some { ts := 0, sender := sender, receiver := receiver, token := token
                             amount := (amountRaw : ℚ) / 10 ^ decimalsOf token }
              | _, _ => none

def parseTransferEvents (thr : List (String × ℚ)) (decimalsOf : String → Nat)
    (logs : List LogEntry) : List TransferEvent :=
  logs.filterMap (parseLog thr decimalsOf)

/-- One qualifying transaction as fed to the aggregator by `_process_block`
(lines 388-407): the called contract, its record (carrying the block
timestamp) and its timestamped transfer events. -/
structure TxInput where
  contract : String
  record : TxRecord
  events : List TransferEvent
deriving DecidableEq

/-- The per-transaction `add` / `compute` / `maybe_alert` sequence of
`_process_block`, folded over a block's qualifying transactions.  `compute`
runs at the block timestamp carried by the record, `maybe_alert` at the
wall-clock time `now`.  An exception escaping `maybe_alert` would propagate
through the `Except` bind and abandon the remaining transactions. -/
def processTxs {E : Type} (cb : Option (String → Except E Unit)) (symbolOf : String → String)
    (now : ℚ) : DetectorState → List TxInput → Except E (DetectorState × Nat)
  | d, [] => Except.ok (d, 0)
  | d, tx :: rest =>
      let d1 := addTxAndEvents d tx.contract tx.record tx.events
      let pr := computeSenderReceiverAccumulated d1 tx.contract tx.record.ts
      match maybeAlert cb symbolOf pr.1 tx.contract pr.2 now with
      | Except.ok (d2, _) =>
          (processTxs cb symbolOf now d2 rest).map (fun q => (q.1, q.2 + 1))
      | Except.error e => Except.error e

/-- The events of a window that the accumulation pass credits to `a` under
token `tok`, for role accessor `key` (`.sender` or `.receiver`). -/
def matchingEvents (thr : List (String × ℚ)) (key : TransferEvent → String)
    (evs : List TransferEvent) (a tok : String) : List TransferEvent :=
  evs.filter (fun e => isTokenMonitored thr e.token && key e == a && e.token == tok)

/-- The accumulated window sum for `(a, tok)` under role accessor `key`. -/
def accSumKey (thr : List (String × ℚ)) (key : TransferEvent → String)
    (evs : List TransferEvent) (a tok : String) : ℚ :=
  ((matchingEvents thr key evs a tok).map TransferEvent.amount).sum

/-- One accumulation step for a single role (the two components of
`accumulate`'s step are independent). -/
def genStep (thr : List (String × ℚ)) (key : TransferEvent → String)
    (m : SumMap) (ev : TransferEvent) : SumMap :=
  if isTokenMonitored thr ev.token then bumpAmt m (key ev) ev.token ev.amount else m

def genAccum (thr : List (String × ℚ)) (key : TransferEvent → String)
    (evs : List TransferEvent) : SumMap :=
  evs.foldl (genStep thr key) []

/-- The keys of an association list are distinct (true of every map this model
builds, since `dictSet` never duplicates a key). -/
def KeysNodup {κ α : Type} (m : List (κ × α)) : Prop := (m.map Prod.fst).Nodup

def GoodSums (m : SumMap) : Prop := KeysNodup m ∧ ∀ p ∈ m, KeysNodup p.2

/-! ## Association list lemmas -/

theorem dictGet?_dictSet_self {κ α : Type} [DecidableEq κ] (m : List (κ × α)) (k : κ) (v : α) :
    dictGet? (dictSet m k v) k = some v := by
  induction m with
  | nil => simp [dictGet?, dictSet]
  | cons p rest ih =>
      obtain ⟨k', v'⟩ := p
      by_cases h : k' = k
      · subst h; simp [dictGet?, dictSet]
      · simp [dictGet?, dictSet, h, ih]

theorem dictGet?_dictSet_ne {κ α : Type} [DecidableEq κ] (m : List (κ × α)) (k q : κ) (v : α)
    (h : q ≠ k) : dictGet? (dictSet m k v) q = dictGet? m q := by
  induction m with
  | nil =>
      simp only [dictSet, dictGet?]
      rw [if_neg (fun hh => h hh.symm)]
  | cons p rest ih =>
      obtain ⟨k', v'⟩ := p
      by_cases hk : k' = k
      · subst hk
        simp only [dictSet, if_pos rfl, dictGet?]
        rw [if_neg (fun hh => h hh.symm), if_neg (fun hh => h hh.symm)]
      · simp only [dictSet, if_neg hk]
        by_cases hq : k' = q
        · simp [dictGet?, hq]
        · simp [dictGet?, hq, ih]

theorem mem_dictSet {κ α : Type} [DecidableEq κ] (m : List (κ × α)) (k : κ) (v : α)
    (x : κ × α) (hx : x ∈ dictSet m k v) : x ∈ m ∨ x = (k, v) := by
  induction m with
  | nil => simpa [dictSet] using hx
  | cons p rest ih =>
      obtain ⟨k', v'⟩ := p
      by_cases h : k' = k
      · subst h
        simp only [dictSet, if_pos rfl] at hx
        rcases List.mem_cons.mp hx with h1 | h1
        · exact Or.inr h1
        · exact Or.inl (List.mem_cons_of_mem _ h1)
      · simp only [dictSet, if_neg h] at hx
        rcases List.mem_cons.mp hx with h1 | h1
        · exact Or.inl (h1 ▸ List.mem_cons_self _ _)
        · rcases ih h1 with h2 | h2
          · exact Or.inl (List.mem_cons_of_mem _ h2)
          · exact Or.inr h2

theorem keysNodup_dictSet {κ α : Type} [DecidableEq κ] (m : List (κ × α)) (k : κ) (v : α)
    (h : KeysNodup m) : KeysNodup (dictSet m k v) := by
  induction m with
  | nil => simp [KeysNodup, dictSet]
  | cons p rest ih =>
      obtain ⟨k', v'⟩ := p
      simp only [KeysNodup, List.map_cons, List.nodup_cons] at h
      by_cases hk : k' = k
      · subst hk
        simpa [KeysNodup, dictSet] using h
      · have hrest := ih h.2
        simp only [KeysNodup, dictSet, if_neg hk, List.map_cons, List.nodup_cons]
        refine ⟨?_, hrest⟩
        intro hmem
        rcases List.mem_map.mp hmem with ⟨x, hx, hfst⟩
        rcases mem_dictSet rest k v x hx with h1 | h1
        · exact h.1 (hfst ▸ List.mem_map_of_mem Prod.fst h1)
        · exact hk (by rw [h1] at hfst; exact hfst.symm)

theorem dictGet?_eq_some_of_mem {κ α : Type} [DecidableEq κ] (m : List (κ × α)) (k : κ) (v : α)
    (hnd : KeysNodup m) (hmem : (k, v) ∈ m) : dictGet? m k = some v := by
  induction m with
  | nil => cases hmem
  | cons p rest ih =>
      obtain ⟨k', v'⟩ := p
      simp only [KeysNodup, List.map_cons, List.nodup_cons] at hnd
      rcases List.mem_cons.mp hmem with h1 | h1
      · have hk : k' = k := (Prod.ext_iff.mp h1).1.symm
        have hv : v' = v := (Prod.ext_iff.mp h1).2.symm
        simp [dictGet?, hk, hv]
      · have hk : k' ≠ k := by
          intro hh
          exact hnd.1 (hh ▸ List.mem_map_of_mem Prod.fst h1)
        simp [dictGet?, hk, ih hnd.2 h1]

theorem mem_of_dictGet?_eq_some {κ α : Type} [DecidableEq κ] (m : List (κ × α)) (k : κ) (v : α)
    (h : dictGet? m k = some v) : (k, v) ∈ m := by
  induction m with
  | nil => simp [dictGet?] at h
  | cons p rest ih =>
      obtain ⟨k', v'⟩ := p
      by_cases hk : k' = k
      · subst hk
        simp only [dictGet?, eq_self_iff_true, if_true, Option.some.injEq] at h
        exact h ▸ List.mem_cons_self _ _
      · simp only [dictGet?, if_neg hk] at h
        exact List.mem_cons_of_mem _ (ih h)

theorem dictGet?_mapValues {κ α β : Type} [DecidableEq κ] (m : List (κ × α))
    (f : κ → α → β) (k : κ) :
    dictGet? (m.map (fun p => (p.1, f p.1 p.2))) k = (dictGet? m k).map (f k) := by
  induction m with
  | nil => simp [dictGet?]
  | cons p rest ih =>
      obtain ⟨k', v'⟩ := p
      by_cases hk : k' = k
      · subst hk; simp [dictGet?]
      · simp [dictGet?, hk, ih]

theorem dictGet?_keyed_map {κ α : Type} [DecidableEq κ] (ws : List κ) (g : κ → α) (w : κ)
    (hnd : ws.Nodup) (hw : w ∈ ws) :
    dictGet? (ws.map (fun x => (x, g x))) w = some (g w) := by
  induction ws with
  | nil => cases hw
  | cons x rest ih =>
      rcases List.mem_cons.mp hw with h1 | h1
      · subst h1; simp [dictGet?]
      · have hx : x ≠ w := fun hh => (List.nodup_cons.mp hnd).1 (hh ▸ h1)
        simp [dictGet?, hx, ih (List.nodup_cons.mp hnd).2 h1]

/-! ## dropWhile lemmas (deque pruning) -/

theorem dropWhile_dropWhile {α : Type} (p : α → Bool) (l : List α) :
    (l.dropWhile p).dropWhile p = l.dropWhile p := by
  induction l with
  | nil => simp
  | cons a l ih =>
      by_cases h : p a
      · simp [List.dropWhile_cons, h, ih]
      · simp [List.dropWhile_cons, h]

theorem dropWhile_all_gt {α : Type} (f : α → Int) (c : Int) (l : List α)
    (h : l.Pairwise (fun a b => f a ≤ f b)) :
    ∀ x ∈ l.dropWhile (fun a => decide (f a ≤ c)), c < f x := by
  induction l with
  | nil => intro x hx; cases hx
  | cons a l ih =>
      have ha := (List.pairwise_cons.mp h).1
      have hl := (List.pairwise_cons.mp h).2
      by_cases hpa : f a ≤ c
      · intro x hx
        rw [List.dropWhile_cons, if_pos (by simpa using hpa)] at hx
        exact ih hl x hx
      · intro x hx
        rw [List.dropWhile_cons, if_neg (by simpa using hpa)] at hx
        rcases List.mem_cons.mp hx with h1 | h1
        · exact h1 ▸ lt_of_not_le hpa
        · exact lt_of_lt_of_le (lt_of_not_le hpa) (ha x h1)

theorem mem_dropWhile_of_not_pred {α : Type} (p : α → Bool) (l : List α) (x : α)
    (hx : x ∈ l) (hpx : p x = false) : x ∈ l.dropWhile p := by
  have hsplit := List.takeWhile_append_dropWhile (p := p) (l := l)
  rw [← hsplit] at hx
  rcases List.mem_append.mp hx with h1 | h1
  · exact absurd (List.mem_takeWhile_imp h1) (by simp [hpx])
  · exact h1

theorem pairwise_of_mem_rel {α : Type} (R : α → α → Prop) (l : List α)
    (h : ∀ a ∈ l, ∀ b ∈ l, R a b) : l.Pairwise R := by
  induction l with
  | nil => exact List.Pairwise.nil
  | cons a l ih =>
      exact List.Pairwise.cons
        (fun b hb => h a (List.mem_cons_self _ _) b (List.mem_cons_of_mem _ hb))
        (ih fun x hx b hb => h x (List.mem_cons_of_mem _ hx) b (List.mem_cons_of_mem _ hb))

/-! ## Window state lemmas -/

theorem pruneOld_idem (s : ContractWindowState) (t : Int) :
    (s.pruneOld t).pruneOld t = s.pruneOld t := by
  obtain ⟨rs, es⟩ := s
  simp only [ContractWindowState.pruneOld, List.map_map, ContractWindowState.mk.injEq]
  constructor
  · apply List.map_congr_left
    intro p hp
    simp [Function.comp, dropWhile_dropWhile]
  · apply List.map_congr_left
    intro p hp
    simp [Function.comp, dropWhile_dropWhile]

theorem recordsFor_pruneOld (s : ContractWindowState) (t w : Int) :
    recordsFor (s.pruneOld t) w
      = (recordsFor s w).dropWhile (fun r => decide (r.ts ≤ t - w)) := by
  unfold recordsFor ContractWindowState.pruneOld
  rw [dictGet?_mapValues s.recordsByWindow
    (fun k l => l.dropWhile (fun r => decide (r.ts ≤ t - k))) w]
  cases dictGet? s.recordsByWindow w <;> simp

theorem eventsFor_pruneOld (s : ContractWindowState) (t w : Int) :
    eventsFor (s.pruneOld t) w
      = (eventsFor s w).dropWhile (fun e => decide (e.ts ≤ t - w)) := by
  unfold eventsFor ContractWindowState.pruneOld
  rw [dictGet?_mapValues s.transferEventsByWindow
    (fun k l => l.dropWhile (fun e => decide (e.ts ≤ t - k))) w]
  cases dictGet? s.transferEventsByWindow w <;> simp

theorem recordsByWindow_applyAdds (calls : List (TxRecord × List TransferEvent)) :
    ∀ s : ContractWindowState, (applyAdds s calls).recordsByWindow
      = s.recordsByWindow.map (fun p => (p.1, p.2 ++ calls.map Prod.fst)) := by
  induction calls with
  | nil => intro s; simp [applyAdds]
  | cons c cs ih =>
      intro s
      show (applyAdds (s.addOne c.1 c.2) cs).recordsByWindow = _
      rw [ih]
      simp only [ContractWindowState.addOne, List.map_map]
      apply List.map_congr_left
      intro p hp
      simp [Function.comp]

theorem transferEventsByWindow_applyAdds (calls : List (TxRecord × List TransferEvent)) :
    ∀ s : ContractWindowState, (applyAdds s calls).transferEventsByWindow
      = s.transferEventsByWindow.map (fun p => (p.1, p.2 ++ (calls.map Prod.snd).flatten)) := by
  induction calls with
  | nil => intro s; simp [applyAdds]
  | cons c cs ih =>
      intro s
      show (applyAdds (s.addOne c.1 c.2) cs).transferEventsByWindow = _
      rw [ih]
      simp only [ContractWindowState.addOne, List.map_map]
      apply List.map_congr_left
      intro p hp
      simp [Function.comp]

theorem recordsFor_applyAdds_init (calls : List (TxRecord × List TransferEvent)) (w : Int)
    (hw : w ∈ WINDOWS) :
    recordsFor (applyAdds ContractWindowState.init calls) w = calls.map Prod.fst := by
  unfold recordsFor
  rw [recordsByWindow_applyAdds]
  unfold ContractWindowState.init
  rw [List.map_map]
  have hcomp : ((fun p : Int × List TxRecord => (p.1, p.2 ++ calls.map Prod.fst)) ∘
      (fun w => (w, ([] : List TxRecord)))) = fun x => (x, calls.map Prod.fst) := by
    funext x; simp
  rw [hcomp, dictGet?_keyed_map WINDOWS _ w (by decide) hw]
  rfl

theorem eventsFor_applyAdds_init (calls : List (TxRecord × List TransferEvent)) (w : Int)
    (hw : w ∈ WINDOWS) :
    eventsFor (applyAdds ContractWindowState.init calls) w = (calls.map Prod.snd).flatten := by
  unfold eventsFor
  rw [transferEventsByWindow_applyAdds]
  unfold ContractWindowState.init
  rw [List.map_map]
  have hcomp : ((fun p : Int × List TransferEvent => (p.1, p.2 ++ (calls.map Prod.snd).flatten)) ∘
      (fun w => (w, ([] : List TransferEvent)))) = fun x => (x, (calls.map Prod.snd).flatten) := by
    funext x; simp
  rw [hcomp, dictGet?_keyed_map WINDOWS _ w (by decide) hw]
  rfl

theorem pairwise_ts_records (calls : List (TxRecord × List TransferEvent))
    (H2 : (calls.map (fun c => c.1.ts)).Pairwise (· ≤ ·)) :
    (calls.map Prod.fst).Pairwise (fun a b : TxRecord => a.ts ≤ b.ts) := by
  rw [List.pairwise_map] at H2 ⊢
  exact H2

theorem pairwise_ts_events (calls : List (TxRecord × List TransferEvent))
    (H1 : ∀ c ∈ calls, ∀ e ∈ c.2, e.ts = c.1.ts)
    (H2 : (calls.map (fun c => c.1.ts)).Pairwise (· ≤ ·)) :
    ((calls.map Prod.snd).flatten).Pairwise (fun a b : TransferEvent => a.ts ≤ b.ts) := by
  rw [List.pairwise_flatten]
  constructor
  · intro l hl
    rcases List.mem_map.mp hl with ⟨c, hc, rfl⟩
    apply pairwise_of_mem_rel
    intro a ha b hb
    rw [H1 c hc a ha, H1 c hc b hb]
  · rw [List.pairwise_map]
    rw [List.pairwise_map] at H2
    refine List.Pairwise.imp_of_mem ?_ H2
    intro a b ha hb hr x hx y hy
    rw [H1 a ha x hx, H1 b hb y hy]
    exact hr

/-- C2.  Window exactness: starting from a fresh contract state, after any
sequence of `add_tx_and_events` calls whose timestamps are non-decreasing
(each record tagged with its block time, its events carrying the same time),
`prune_old` at time `t` leaves, in every configured window `w`, exactly the
records and events with `timestamp > t - w`: everything retained satisfies
the bound, and nothing satisfying the bound was removed. -/
theorem prune_window_exact (calls : List (TxRecord × List TransferEvent)) (t : Int)
    (H1 : ∀ c ∈ calls, ∀ e ∈ c.2, e.ts = c.1.ts)
    (H2 : (calls.map (fun c => c.1.ts)).Pairwise (· ≤ ·)) :
    ∀ w ∈ WINDOWS,
      (∀ r ∈ recordsFor ((applyAdds ContractWindowState.init calls).pruneOld t) w,
        t - w < r.ts) ∧
      (∀ r ∈ recordsFor (applyAdds ContractWindowState.init calls) w, t - w < r.ts →
        r ∈ recordsFor ((applyAdds ContractWindowState.init calls).pruneOld t) w) ∧
      (∀ e ∈ eventsFor ((applyAdds ContractWindowState.init calls).pruneOld t) w,
        t - w < e.ts) ∧
      (∀ e ∈ eventsFor (applyAdds ContractWindowState.init calls) w, t - w < e.ts →
        e ∈ eventsFor ((applyAdds ContractWindowState.init calls).pruneOld t) w) := by
  intro w hw
  rw [recordsFor_pruneOld, eventsFor_pruneOld, recordsFor_applyAdds_init calls w hw,
      eventsFor_applyAdds_init calls w hw]
  refine ⟨?_, ?_, ?_, ?_⟩
  · exact dropWhile_all_gt TxRecord.ts (t - w) _ (pairwise_ts_records calls H2)
  · intro r hr hlt
    exact mem_dropWhile_of_not_pred _ _ r hr (by simpa using not_le.mpr hlt)
  · exact dropWhile_all_gt TransferEvent.ts (t - w) _ (pairwise_ts_events calls H1 H2)
  · intro e he hlt
    exact mem_dropWhile_of_not_pred _ _ e he (by simpa using not_le.mpr hlt)

/-- Witness for `prune_window_exact` at a concrete two-call history. -/
theorem prune_window_exact_witness :
    (∀ c ∈ [((⟨10, "0xa", "0xf", some "0xc", []⟩ : TxRecord),
              [(⟨10, "0xs", "0xr", "0xt", 5⟩ : TransferEvent)]),
            ((⟨100, "0xb", "0xf", some "0xc", []⟩ : TxRecord),
              [(⟨100, "0xs", "0xr", "0xt", 7⟩ : TransferEvent)])],
        ∀ e ∈ c.2, e.ts = c.1.ts) ∧
    (([((⟨10, "0xa", "0xf", some "0xc", []⟩ : TxRecord),
              [(⟨10, "0xs", "0xr", "0xt", 5⟩ : TransferEvent)]),
            ((⟨100, "0xb", "0xf", some "0xc", []⟩ : TxRecord),
              [(⟨100, "0xs", "0xr", "0xt", 7⟩ : TransferEvent)])].map
        (fun c => c.1.ts)).Pairwise (· ≤ ·)) ∧
    (∀ w ∈ WINDOWS,
      (∀ r ∈ recordsFor ((applyAdds ContractWindowState.init
            [((⟨10, "0xa", "0xf", some "0xc", []⟩ : TxRecord),
              [(⟨10, "0xs", "0xr", "0xt", 5⟩ : TransferEvent)]),
             ((⟨100, "0xb", "0xf", some "0xc", []⟩ : TxRecord),
              [(⟨100, "0xs", "0xr", "0xt", 7⟩ : TransferEvent)])]).pruneOld 120) w,
        (120 : Int) - w < r.ts) ∧
      (∀ r ∈ recordsFor (applyAdds ContractWindowState.init
            [((⟨10, "0xa", "0xf", some "0xc", []⟩ : TxRecord),
              [(⟨10, "0xs", "0xr", "0xt", 5⟩ : TransferEvent)]),
             ((⟨100, "0xb", "0xf", some "0xc", []⟩ : TxRecord),
              [(⟨100, "0xs", "0xr", "0xt", 7⟩ : TransferEvent)])]) w,
        (120 : Int) - w < r.ts →
        r ∈ recordsFor ((applyAdds ContractWindowState.init
            [((⟨10, "0xa", "0xf", some "0xc", []⟩ : TxRecord),
              [(⟨10, "0xs", "0xr", "0xt", 5⟩ : TransferEvent)]),
             ((⟨100, "0xb", "0xf", some "0xc", []⟩ : TxRecord),
              [(⟨100, "0xs", "0xr", "0xt", 7⟩ : TransferEvent)])]).pruneOld 120) w) ∧
      (∀ e ∈ eventsFor ((applyAdds ContractWindowState.init
            [((⟨10, "0xa", "0xf", some "0xc", []⟩ : TxRecord),
              [(⟨10, "0xs", "0xr", "0xt", 5⟩ : TransferEvent)]),
             ((⟨100, "0xb", "0xf", some "0xc", []⟩ : TxRecord),
              [(⟨100, "0xs", "0xr", "0xt", 7⟩ : TransferEvent)])]).pruneOld 120) w,
        (120 : Int) - w < e.ts) ∧
      (∀ e ∈ eventsFor (applyAdds ContractWindowState.init
            [((⟨10, "0xa", "0xf", some "0xc", []⟩ : TxRecord),
              [(⟨10, "0xs", "0xr", "0xt", 5⟩ : TransferEvent)]),
             ((⟨100, "0xb", "0xf", some "0xc", []⟩ : TxRecord),
              [(⟨100, "0xs", "0xr", "0xt", 7⟩ : TransferEvent)])]) w,
        (120 : Int) - w < e.ts →
        e ∈ eventsFor ((applyAdds ContractWindowState.init
            [((⟨10, "0xa", "0xf", some "0xc", []⟩ : TxRecord),
              [(⟨10, "0xs", "0xr", "0xt", 5⟩ : TransferEvent)]),
             ((⟨100, "0xb", "0xf", some "0xc", []⟩ : TxRecord),
              [(⟨100, "0xs", "0xr", "0xt", 7⟩ : TransferEvent)])]).pruneOld 120) w)) :=
  ⟨by decide, by decide, prune_window_exact _ 120 (by decide) (by decide)⟩

/-- C7.  Idempotent re-compute: calling
`compute_sender_receiver_accumulated` twice with the same contract and
timestamp and no intervening `add` yields the identical per-window breakdown;
the second prune is a no-op on the already-pruned deques. -/
theorem compute_idempotent (d : DetectorState) (contract : String) (t : Int) :
    (computeSenderReceiverAccumulated
        (computeSenderReceiverAccumulated d contract t).1 contract t).2
      = (computeSenderReceiverAccumulated d contract t).2 := by
  unfold computeSenderReceiverAccumulated
  simp only [getState, dictGet?_dictSet_self, Option.getD_some, pruneOld_idem]

/-- C10.  Per-contract window state is keyed by the contract string exactly as
supplied, while the cooldown table is keyed by the lowercased string: two
addresses differing only in case have distinct window states but share one
cooldown entry. -/
theorem state_vs_cooldown_keying (d : DetectorState) (c1 c2 : String) (rec : TxRecord)
    (evs : List TransferEvent) (t t' : ℚ)
    (hne : c1 ≠ c2) (hlow : pyLower c1 = pyLower c2) :
    getState (addTxAndEvents d c1 rec evs) c1 = (getState d c1).addOne rec evs ∧
    getState (addTxAndEvents d c1 rec evs) c2 = getState d c2 ∧
    isInCooldown (setAlertCooldown d c1 t) c2 t'
      = decide (t' - t < d.alertCooldownSeconds) := by
  refine ⟨?_, ?_, ?_⟩
  · simp [getState, addTxAndEvents, dictGet?_dictSet_self]
  · simp [getState, addTxAndEvents, dictGet?_dictSet_ne _ _ _ _ (Ne.symm hne)]
  · simp [isInCooldown, setAlertCooldown, ← hlow, dictGet?_dictSet_self]

/-- Witness for `state_vs_cooldown_keying`: "0xAb" and "0xaB". -/
theorem state_vs_cooldown_keying_witness :
    ("0xAb" : String) ≠ "0xaB" ∧ pyLower "0xAb" = pyLower "0xaB" ∧
    (getState (addTxAndEvents ⟨[], 3600, [], []⟩ "0xAb" ⟨0, "", "", none, []⟩ []) "0xAb"
        = (getState ⟨[], 3600, [], []⟩ "0xAb").addOne ⟨0, "", "", none, []⟩ [] ∧
      getState (addTxAndEvents ⟨[], 3600, [], []⟩ "0xAb" ⟨0, "", "", none, []⟩ []) "0xaB"
        = getState ⟨[], 3600, [], []⟩ "0xaB" ∧
      isInCooldown (setAlertCooldown ⟨[], 3600, [], []⟩ "0xAb" 5) "0xaB" 10
        = decide ((10 : ℚ) - 5 < (⟨[], 3600, [], []⟩ : DetectorState).alertCooldownSeconds)) :=
  ⟨by decide, by decide,
    state_vs_cooldown_keying ⟨[], 3600, [], []⟩ "0xAb" "0xaB" ⟨0, "", "", none, []⟩ [] 5 10
      (by decide) (by decide)⟩

/-! ## maybe_alert lemmas -/

theorem maybeAlert_not_cooldown {E : Type} (f : String → Except E Unit)
    (symbolOf : String → String) (d : DetectorState) (contract : String)
    (ws : List (Int × WindowOut)) (t : ℚ)
    (hhits : (alertHits ws).isEmpty = false)
    (hnc : isInCooldown d contract t = false) :
    maybeAlert (some f) symbolOf d contract ws t
      = match f (formatMsg symbolOf contract (alertHits ws)) with
        | Except.ok _ => Except.ok (setAlertCooldown d contract t, true)
        | Except.error _ => Except.ok (d, true) := by
  simp only [maybeAlert]
  rw [if_neg (by simp [hhits]), if_neg (by simp [hnc])]

/-- C4.  Cooldown gating: with a successful dispatch recorded at `t0`, a
non-empty breach set at any `t` with `t - t0 < cooldown` neither invokes the
callback nor touches the state, while the same breach set at
`t0 + cooldown + 1` does invoke the callback. -/
theorem alert_cooldown_gating {E : Type} (f : String → Except E Unit)
    (symbolOf : String → String) (d : DetectorState) (contract : String)
    (winstats : List (Int × WindowOut)) (t0 t : ℚ)
    (hcool : dictGet? d.alertCooldowns (pyLower contract) = some t0)
    (hhits : (alertHits winstats).isEmpty = false)
    (hlt : t - t0 < d.alertCooldownSeconds) :
    maybeAlert (some f) symbolOf d contract winstats t = Except.ok (d, false) ∧
    ∃ d', maybeAlert (some f) symbolOf d contract winstats
      (t0 + d.alertCooldownSeconds + 1) = Except.ok (d', true) := by
  constructor
  · have h1 : isInCooldown d contract t = true := by
      simp only [isInCooldown, hcool]
      simpa using hlt
    simp only [maybeAlert]
    rw [if_neg (by simp [hhits]), if_pos (by simp [h1])]
  · have h2 : isInCooldown d contract (t0 + d.alertCooldownSeconds + 1) = false := by
      simp only [isInCooldown, hcool]
      simp only [decide_eq_false_iff_not]
      intro hcontra
      linarith
    rw [maybeAlert_not_cooldown f symbolOf d contract winstats _ hhits h2]
    cases f (formatMsg symbolOf contract (alertHits winstats)) with
    | ok u => exact ⟨_, rfl⟩
    | error e => exact ⟨_, rfl⟩

/-- Witness for `alert_cooldown_gating`: cooldown set at 50, breach at 100,
cooldown 3600 seconds. -/
theorem alert_cooldown_gating_witness :
    dictGet? (⟨[("0xt", 1000)], 3600, [],
        [("0xc", 50)]⟩ : DetectorState).alertCooldowns (pyLower "0xC") = some 50 ∧
    (alertHits [(60, ⟨[], [],
        [(Role.sender, "0xa", "0xt", 1200, 1000)]⟩)]).isEmpty = false ∧
    (100 : ℚ) - 50 < (⟨[("0xt", 1000)], 3600, [],
        [("0xc", 50)]⟩ : DetectorState).alertCooldownSeconds ∧
    (maybeAlert (some (fun _ => (Except.ok () : Except Unit Unit))) (fun _ => "T")
        ⟨[("0xt", 1000)], 3600, [], [("0xc", 50)]⟩ "0xC"
        [(60, ⟨[], [], [(Role.sender, "0xa", "0xt", 1200, 1000)]⟩)] 100
      = Except.ok ((⟨[("0xt", 1000)], 3600, [], [("0xc", 50)]⟩ : DetectorState), false) ∧
    ∃ d', maybeAlert (some (fun _ => (Except.ok () : Except Unit Unit))) (fun _ => "T")
        ⟨[("0xt", 1000)], 3600, [], [("0xc", 50)]⟩ "0xC"
        [(60, ⟨[], [], [(Role.sender, "0xa", "0xt", 1200, 1000)]⟩)]
        (50 + (⟨[("0xt", 1000)], 3600, [],
          [("0xc", 50)]⟩ : DetectorState).alertCooldownSeconds + 1)
      = Except.ok (d', true)) :=
  ⟨by decide, by decide, by norm_num,
    alert_cooldown_gating (fun _ => (Except.ok () : Except Unit Unit)) (fun _ => "T")
      ⟨[("0xt", 1000)], 3600, [], [("0xc", 50)]⟩ "0xC"
      [(60, ⟨[], [], [(Role.sender, "0xa", "0xt", 1200, 1000)]⟩)] 50 100
      (by decide) (by decide) (by norm_num)⟩

/-- C5.  A raising dispatch callback leaves the cooldown table (indeed the
whole detector state) unchanged while still having been invoked, so an
identical retry still attempts dispatch; the cooldown timestamp is written,
set to `current_ts`, only when the callback returns without raising. -/
theorem dispatch_failure_no_cooldown {E : Type} (f g : String → Except E Unit)
    (symbolOf : String → String) (d : DetectorState) (contract : String)
    (ws : List (Int × WindowOut)) (t : ℚ)
    (hf : ∀ s, ∃ e, f s = Except.error e)
    (hg : ∀ s, g s = Except.ok ())
    (hhits : (alertHits ws).isEmpty = false)
    (hnc : isInCooldown d contract t = false) :
    maybeAlert (some f) symbolOf d contract ws t = Except.ok (d, true) ∧
    (∀ h : String → Except E Unit, ∃ d',
      maybeAlert (some h) symbolOf d contract ws t = Except.ok (d', true)) ∧
    maybeAlert (some g) symbolOf d contract ws t
      = Except.ok (setAlertCooldown d contract t, true) := by
  refine ⟨?_, ?_, ?_⟩
  · rw [maybeAlert_not_cooldown f symbolOf d contract ws t hhits hnc]
    obtain ⟨e, he⟩ := hf (formatMsg symbolOf contract (alertHits ws))
    rw [he]
  · intro h
    rw [maybeAlert_not_cooldown h symbolOf d contract ws t hhits hnc]
    cases h (formatMsg symbolOf contract (alertHits ws)) with
    | ok u => exact ⟨_, rfl⟩
    | error e => exact ⟨_, rfl⟩
  · rw [maybeAlert_not_cooldown g symbolOf d contract ws t hhits hnc,
        hg (formatMsg symbolOf contract (alertHits ws))]

/-- Witness for `dispatch_failure_no_cooldown` with an always-raising and an
always-succeeding callback. -/
theorem dispatch_failure_no_cooldown_witness :
    (∀ s : String, ∃ e : Unit,
      (fun _ => (Except.error () : Except Unit Unit)) s = Except.error e) ∧
    (∀ s : String, (fun _ => (Except.ok () : Except Unit Unit)) s = Except.ok ()) ∧
    (alertHits [(60, ⟨[], [], [(Role.sender, "0xa", "0xt", 1200, 1000)]⟩)]).isEmpty = false ∧
    isInCooldown ⟨[("0xt", 1000)], 3600, [], []⟩ "0xC" 100 = false ∧
    (maybeAlert (some (fun _ => (Except.error () : Except Unit Unit))) (fun _ => "T")
        ⟨[("0xt", 1000)], 3600, [], []⟩ "0xC"
        [(60, ⟨[], [], [(Role.sender, "0xa", "0xt", 1200, 1000)]⟩)] 100
      = Except.ok ((⟨[("0xt", 1000)], 3600, [], []⟩ : DetectorState), true) ∧
    (∀ h : String → Except Unit Unit, ∃ d',
      maybeAlert (some h) (fun _ => "T") ⟨[("0xt", 1000)], 3600, [], []⟩ "0xC"
        [(60, ⟨[], [], [(Role.sender, "0xa", "0xt", 1200, 1000)]⟩)] 100
      = Except.ok (d', true)) ∧
    maybeAlert (some (fun _ => (Except.ok () : Except Unit Unit))) (fun _ => "T")
        ⟨[("0xt", 1000)], 3600, [], []⟩ "0xC"
        [(60, ⟨[], [], [(Role.sender, "0xa", "0xt", 1200, 1000)]⟩)] 100
      = Except.ok (setAlertCooldown ⟨[("0xt", 1000)], 3600, [], []⟩ "0xC" 100, true)) :=
  ⟨fun _ => ⟨(), rfl⟩, fun _ => rfl, by decide, by decide,
    dispatch_failure_no_cooldown (fun _ => (Except.error () : Except Unit Unit))
      (fun _ => (Except.ok () : Except Unit Unit)) (fun _ => "T")
      ⟨[("0xt", 1000)], 3600, [], []⟩ "0xC"
      [(60, ⟨[], [], [(Role.sender, "0xa", "0xt", 1200, 1000)]⟩)] 100
      (fun _ => ⟨(), rfl⟩) (fun _ => rfl) (by decide) (by decide)⟩

theorem maybeAlert_isOk {E : Type} (cb : Option (String → Except E Unit))
    (symbolOf : String → String) (d : DetectorState) (contract : String)
    (ws : List (Int × WindowOut)) (t : ℚ) :
    ∃ p, maybeAlert cb symbolOf d contract ws t = Except.ok p := by
  by_cases h1 : (alertHits ws).isEmpty = true
  · exact ⟨(d, false), by simp only [maybeAlert]; rw [if_pos h1]⟩
  · by_cases h2 : isInCooldown d contract t = true
    · exact ⟨(d, false), by simp only [maybeAlert]; rw [if_neg h1, if_pos h2]⟩
    · cases cb with
      | none => exact ⟨(d, false), by simp only [maybeAlert]; rw [if_neg h1, if_neg h2]⟩
      | some f =>
          have hmsg := maybeAlert_not_cooldown f symbolOf d contract ws t
            (by simpa using h1) (by simpa using h2)
          cases hfm : f (formatMsg symbolOf contract (alertHits ws)) with
          | ok u => exact ⟨_, by rw [hmsg, hfm]⟩
          | error e => exact ⟨_, by rw [hmsg, hfm]⟩

/-- C3.  Alert failures are contained: `maybe_alert` returns normally for
every behaviour of the dispatch callback (the callback invocation, the only
operation in it that can raise, sits inside `try`/`except`; the metadata
lookups used for formatting catch internally, see `decimalsStep` and
`symbolStep`), and consequently the per-transaction `add`/`compute`/
`maybe_alert` loop of `_process_block` processes every queued transaction no
matter how often dispatch fails. -/
theorem alert_errors_contained {E : Type} (cb : Option (String → Except E Unit))
    (symbolOf : String → String) (now : ℚ) (d : DetectorState) (contract : String)
    (ws : List (Int × WindowOut)) (t : ℚ) (txs : List TxInput) :
    (∃ p, maybeAlert cb symbolOf d contract ws t = Except.ok p) ∧
    (∃ d', processTxs cb symbolOf now d txs = Except.ok (d', txs.length)) := by
  refine ⟨maybeAlert_isOk cb symbolOf d contract ws t, ?_⟩
  induction txs generalizing d with
  | nil => exact ⟨d, rfl⟩
  | cons tx rest ih =>
      obtain ⟨⟨d2, b⟩, hok⟩ := maybeAlert_isOk cb symbolOf
        (computeSenderReceiverAccumulated (addTxAndEvents d tx.contract tx.record tx.events)
          tx.contract tx.record.ts).1
        tx.contract
        (computeSenderReceiverAccumulated (addTxAndEvents d tx.contract tx.record tx.events)
          tx.contract tx.record.ts).2
        now
      obtain ⟨d', hrec⟩ := ih d2
      refine ⟨d', ?_⟩
      simp only [processTxs]
      rw [hok]
      show Except.map (fun q => (q.1, q.2 + 1)) (processTxs cb symbolOf now d2 rest)
        = Except.ok (d', (tx :: rest).length)
      rw [hrec]
      rfl

/-- C1 counterexample: a failed `decimals()` lookup stores the fallback 18 in
the cache, and an identical later call returns the stale 18 from the cache
instead of retrying the live lookup (a fresh lookup of the same response
parses 8). -/
theorem tokenMeta_failure_cached_counterexample :
    decimalsStep [] "0xAB" none = (18, [("0xab", 18)]) ∧
    (decimalsStep [("0xab", 18)] "0xAB"
      (some "0x0000000000000000000000000000000000000000000000000000000000000008")).1 = 18 ∧
    (decimalsStep [] "0xAB"
      (some "0x0000000000000000000000000000000000000000000000000000000000000008")).1 = 8 ∧
    symbolStep [] "0xAB" none = ("UNKNOWN", [("0xab", "UNKNOWN")]) := by
  refine ⟨by decide, by decide, by decide, by decide⟩

/-- C1 amended: both metadata caches are populated on every cache miss,
successful resolution or not — the fallback (18 / "UNKNOWN") is cached on
failure, and a subsequent call for the same token returns the cached value
without retrying the live lookup. -/
theorem tokenMeta_fallback_cached (dc : List (String × Nat)) (sc : List (String × String))
    (tok : String) (rpcD rpcS : Option String)
    (hd : dictGet? dc (pyLower tok) = none)
    (hs : dictGet? sc (pyLower tok) = none) :
    (decimalsStep dc tok rpcD).2 = dictSet dc (pyLower tok) (decimalsStep dc tok rpcD).1 ∧
    (∀ r', decimalsStep (decimalsStep dc tok rpcD).2 tok r'
      = ((decimalsStep dc tok rpcD).1, (decimalsStep dc tok rpcD).2)) ∧
    (decimalsStep dc tok none).1 = 18 ∧
    (symbolStep sc tok rpcS).2 = dictSet sc (pyLower tok) (symbolStep sc tok rpcS).1 ∧
    (∀ r', symbolStep (symbolStep sc tok rpcS).2 tok r'
      = ((symbolStep sc tok rpcS).1, (symbolStep sc tok rpcS).2)) ∧
    (symbolStep sc tok none).1 = "UNKNOWN" := by
  refine ⟨?_, ?_, ?_, ?_, ?_, ?_⟩
  · simp only [decimalsStep, hd]
  · intro r'
    simp only [decimalsStep, hd, dictGet?_dictSet_self]
  · simp only [decimalsStep, hd]
  · simp only [symbolStep, hs]
  · intro r'
    simp only [symbolStep, hs, dictGet?_dictSet_self]
  · simp only [symbolStep, hs, parseSymbolResponse]

/-- Witness for `tokenMeta_fallback_cached` on empty caches. -/
theorem tokenMeta_fallback_cached_witness :
    dictGet? ([] : List (String × Nat)) (pyLower "0xA") = none ∧
    dictGet? ([] : List (String × String)) (pyLower "0xA") = none ∧
    ((decimalsStep [] "0xA" none).2
        = dictSet [] (pyLower "0xA") (decimalsStep [] "0xA" none).1 ∧
      (∀ r', decimalsStep (decimalsStep [] "0xA" none).2 "0xA" r'
        = ((decimalsStep [] "0xA" none).1, (decimalsStep [] "0xA" none).2)) ∧
      (decimalsStep [] "0xA" none).1 = 18 ∧
      (symbolStep [] "0xA" none).2
        = dictSet [] (pyLower "0xA") (symbolStep [] "0xA" none).1 ∧
      (∀ r', symbolStep (symbolStep [] "0xA" none).2 "0xA" r'
        = ((symbolStep [] "0xA" none).1, (symbolStep [] "0xA" none).2)) ∧
      (symbolStep [] "0xA" none).1 = "UNKNOWN") :=
  ⟨by decide, by decide,
    tokenMeta_fallback_cached [] [] "0xA" none none (by decide) (by decide)⟩

/-- C8.  An event whose token is not in the monitored set (lowercased key
lookup) contributes to no sender/receiver sum and no breach tuple: the whole
per-window breakdown is as if the event were absent. -/
theorem unmonitored_event_invisible (thr : List (String × ℚ)) (ev : TransferEvent)
    (evs1 evs2 : List TransferEvent)
    (h : isTokenMonitored thr ev.token = false) :
    windowOut thr (evs1 ++ ev :: evs2) = windowOut thr (evs1 ++ evs2) := by
  unfold windowOut accumulate
  simp [List.foldl_append, List.foldl_cons, h]

/-- Witness for `unmonitored_event_invisible`: token "0xu" not configured. -/
theorem unmonitored_event_invisible_witness :
    isTokenMonitored [("0xt", 5)] (⟨7, "0xw", "0xv", "0xu", 999⟩ : TransferEvent).token
        = false ∧
    windowOut [("0xt", 5)]
        ([⟨3, "0xa", "0xb", "0xt", 4⟩] ++ (⟨7, "0xw", "0xv", "0xu", 999⟩ : TransferEvent)
          :: [⟨9, "0xa", "0xb", "0xt", 2⟩])
      = windowOut [("0xt", 5)] ([⟨3, "0xa", "0xb", "0xt", 4⟩] ++ [⟨9, "0xa", "0xb", "0xt", 2⟩]) :=
  ⟨by decide,
    unmonitored_event_invisible [("0xt", 5)] ⟨7, "0xw", "0xv", "0xu", 999⟩
      [⟨3, "0xa", "0xb", "0xt", 4⟩] [⟨9, "0xa", "0xb", "0xt", 2⟩] (by decide)⟩

/-! ## Transfer event extraction lemmas -/

/-- `safe_checksum` is a no-op on `topic_to_address` output: a successful
truncation always yields a 42-character `0x`-prefixed string, which passes
every check in `safe_checksum` (the null-placeholder list only holds the
short literals `0x`, `0x0`, `0x0000`). -/
theorem safeChecksum_topicToAddress (t : String) :
    safeChecksum (topicToAddress t) = topicToAddress t := by
  unfold topicToAddress
  by_cases h : (pyStartsWith t "0x" = true ∧ pyLen t = 66)
  · rw [if_pos h]
    obtain ⟨hs, hl⟩ := h
    have hdata : t.data.length = 66 := hl
    have hlen : pyLen ("0x" ++ pyTakeRight t 40) = 42 := by
      unfold pyLen pyTakeRight
      rw [String.data_append, List.length_append, List.length_drop, hdata]
      rfl
    have hstart : pyStartsWith ("0x" ++ pyTakeRight t 40) "0x" = true := by
      unfold pyStartsWith
      apply decide_eq_true
      rw [String.data_append]
      have h0 : ("0x" : String).data = ['0', 'x'] := rfl
      rw [h0]
      rfl
    have hbad : ¬(("0x" ++ pyTakeRight t 40) = "" ∨ ("0x" ++ pyTakeRight t 40) = "0x" ∨
        ("0x" ++ pyTakeRight t 40) = "0x0" ∨ ("0x" ++ pyTakeRight t 40) = "0x0000") := by
      intro hcase
      rcases hcase with hq | hq | hq | hq <;>
        · rw [hq] at hlen
          exact absurd hlen (by decide)
    simp only [safeChecksum]
    rw [if_neg hbad, if_pos ⟨hstart, hlen⟩]
  · rw [if_neg h]
    rfl

/-- The qualifying-log normal form of `parseLog`: first topic matches, the
token passes `safe_checksum` and is monitored. -/
theorem parseLog_qualifying (thr : List (String × ℚ)) (dec : String → Nat)
    (tokenA t1 t2 dataS : String)
    (hA : safeChecksum (some tokenA) = some tokenA)
    (hMon : isTokenMonitored thr tokenA = true) :
    parseLog thr dec ⟨some tokenA, [transferTopic, t1, t2], some dataS⟩
      = match safeChecksum (topicToAddress t1), safeChecksum (topicToAddress t2) with
        | some sender, some receiver =>
            match pyIntHex? dataS with
            | none => none
            | some amountRaw =>
                some ⟨0, sender, receiver, tokenA, (amountRaw : ℚ) / 10 ^ dec tokenA⟩
        | _, _ => none := by
  simp only [parseLog]
  rw [if_neg (by simp), hA]
  simp only [List.getElem?_cons_succ, List.getElem?_cons_zero, Option.getD_some]
  rw [if_neg (by simp [hMon])]

/-- C9 counterexample: a Transfer log whose second topic is the all-zero
word yields an event whose sender is the 42-character null/burn address —
the event is emitted, not dropped. -/
theorem null_address_not_dropped_counterexample :
    (parseTransferEvents [("0xaaaaaaaaaaaaaaaaaaaaaaaaaaaaaaaaaaaaaaaa", 1000)] (fun _ => 0)
      [⟨some "0xaaaaaaaaaaaaaaaaaaaaaaaaaaaaaaaaaaaaaaaa",
        [transferTopic,
         "0x0000000000000000000000000000000000000000000000000000000000000000",
         "0x000000000000000000000000bbbbbbbbbbbbbbbbbbbbbbbbbbbbbbbbbbbbbbbb"],
        some "0x64"⟩]).map TransferEvent.sender
      = ["0x0000000000000000000000000000000000000000"] := by decide

/-- C9 amended: sender and receiver are the low 20 bytes (last 40 hex
characters) of topics 2 and 3; the event is dropped when either topic is
absent or malformed (not a 66-character `0x`-prefixed string), but the
null/burn placeholder check rejects only the literals `0x`/`0x0`/`0x0000`,
which truncation never produces, so full-length null/burn addresses are
emitted. -/
theorem extractor_address_recovery (thr : List (String × ℚ)) (dec : String → Nat)
    (tokenA t1 t2 dataS : String) (n : Nat)
    (hA : safeChecksum (some tokenA) = some tokenA)
    (hMon : isTokenMonitored thr tokenA = true)
    (hData : pyIntHex? dataS = some n) :
    (∀ s, topicToAddress t1 = some s → s = "0x" ++ pyTakeRight t1 40) ∧
    (topicToAddress t1 = none ∨ topicToAddress t2 = none →
      parseLog thr dec ⟨some tokenA, [transferTopic, t1, t2], some dataS⟩ = none) ∧
    parseLog thr dec ⟨some tokenA, [transferTopic], some dataS⟩ = none ∧
    (∀ s1 s2, topicToAddress t1 = some s1 → topicToAddress t2 = some s2 →
      parseLog thr dec ⟨some tokenA, [transferTopic, t1, t2], some dataS⟩
        = some ⟨0, s1, s2, tokenA, (n : ℚ) / 10 ^ dec tokenA⟩) := by
  refine ⟨?_, ?_, ?_, ?_⟩
  · intro s h
    unfold topicToAddress at h
    by_cases hc : (pyStartsWith t1 "0x" = true ∧ pyLen t1 = 66)
    · rw [if_pos hc] at h
      exact (Option.some.inj h).symm
    · rw [if_neg hc] at h
      exact absurd h (by simp)
  · intro hcase
    rw [parseLog_qualifying thr dec tokenA t1 t2 dataS hA hMon]
    rcases hcase with hq | hq
    · rw [hq]
      rfl
    · rw [hq]
      cases safeChecksum (topicToAddress t1) with
      | none => rfl
      | some s => rfl
  · simp only [parseLog]
    rw [if_neg (by simp), hA]
    simp only [List.getElem?_cons_succ, List.getElem?_nil, Option.getD_some]
    rw [if_neg (by simp [hMon])]
    rfl
  · intro s1 s2 h1 h2
    rw [parseLog_qualifying thr dec tokenA t1 t2 dataS hA hMon]
    have e1 : safeChecksum (topicToAddress t1) = some s1 := by
      rw [safeChecksum_topicToAddress, h1]
    have e2 : safeChecksum (topicToAddress t2) = some s2 := by
      rw [safeChecksum_topicToAddress, h2]
    rw [e1, e2, hData]

/-- Witness for `extractor_address_recovery` on a fully concrete log. -/
theorem extractor_address_recovery_witness :
    safeChecksum (some "0xaaaaaaaaaaaaaaaaaaaaaaaaaaaaaaaaaaaaaaaa")
        = some "0xaaaaaaaaaaaaaaaaaaaaaaaaaaaaaaaaaaaaaaaa" ∧
    isTokenMonitored [("0xaaaaaaaaaaaaaaaaaaaaaaaaaaaaaaaaaaaaaaaa", 1000)]
        "0xaaaaaaaaaaaaaaaaaaaaaaaaaaaaaaaaaaaaaaaa" = true ∧
    pyIntHex? "0x64" = some 100 ∧
    ((∀ s, topicToAddress
        "0x000000000000000000000000cccccccccccccccccccccccccccccccccccccccc" = some s →
        s = "0x" ++ pyTakeRight
          "0x000000000000000000000000cccccccccccccccccccccccccccccccccccccccc" 40) ∧
    (topicToAddress
        "0x000000000000000000000000cccccccccccccccccccccccccccccccccccccccc" = none ∨
      topicToAddress
        "0x000000000000000000000000dddddddddddddddddddddddddddddddddddddddd" = none →
      parseLog [("0xaaaaaaaaaaaaaaaaaaaaaaaaaaaaaaaaaaaaaaaa", 1000)] (fun _ => 18)
        ⟨some "0xaaaaaaaaaaaaaaaaaaaaaaaaaaaaaaaaaaaaaaaa",
         [transferTopic,
          "0x000000000000000000000000cccccccccccccccccccccccccccccccccccccccc",
          "0x000000000000000000000000dddddddddddddddddddddddddddddddddddddddd"],
         some "0x64"⟩ = none) ∧
    parseLog [("0xaaaaaaaaaaaaaaaaaaaaaaaaaaaaaaaaaaaaaaaa", 1000)] (fun _ => 18)
        ⟨some "0xaaaaaaaaaaaaaaaaaaaaaaaaaaaaaaaaaaaaaaaa", [transferTopic],
         some "0x64"⟩ = none ∧
    (∀ s1 s2, topicToAddress
        "0x000000000000000000000000cccccccccccccccccccccccccccccccccccccccc" = some s1 →
      topicToAddress
        "0x000000000000000000000000dddddddddddddddddddddddddddddddddddddddd" = some s2 →
      parseLog [("0xaaaaaaaaaaaaaaaaaaaaaaaaaaaaaaaaaaaaaaaa", 1000)] (fun _ => 18)
        ⟨some "0xaaaaaaaaaaaaaaaaaaaaaaaaaaaaaaaaaaaaaaaa",
         [transferTopic,
          "0x000000000000000000000000cccccccccccccccccccccccccccccccccccccccc",
          "0x000000000000000000000000dddddddddddddddddddddddddddddddddddddddd"],
         some "0x64"⟩
        = some ⟨0, s1, s2, "0xaaaaaaaaaaaaaaaaaaaaaaaaaaaaaaaaaaaaaaaa",
            ((100 : Nat) : ℚ) / 10 ^ (fun _ : String => 18)
              "0xaaaaaaaaaaaaaaaaaaaaaaaaaaaaaaaaaaaaaaaa"⟩)) :=
  ⟨by decide, by decide, by decide,
    extractor_address_recovery [("0xaaaaaaaaaaaaaaaaaaaaaaaaaaaaaaaaaaaaaaaa", 1000)]
      (fun _ => 18) "0xaaaaaaaaaaaaaaaaaaaaaaaaaaaaaaaaaaaaaaaa"
      "0x000000000000000000000000cccccccccccccccccccccccccccccccccccccccc"
      "0x000000000000000000000000dddddddddddddddddddddddddddddddddddddddd"
      "0x64" 100 (by decide) (by decide) (by decide)⟩

/-! ## Accumulation lemmas -/

theorem dictGet2?_bumpAmt_self (m : SumMap) (a tok : String) (amt : ℚ) :
    dictGet2? (bumpAmt m a tok amt) a tok
      = some (((dictGet2? m a tok).getD 0) + amt) := by
  cases hma : dictGet? m a with
  | none => simp [dictGet2?, bumpAmt, hma, dictGet?_dictSet_self, dictGet?]
  | some inner => simp [dictGet2?, bumpAmt, hma, dictGet?_dictSet_self]

theorem dictGet2?_bumpAmt_ne (m : SumMap) (a tok : String) (amt : ℚ) (a' tok' : String)
    (h : ¬(a' = a ∧ tok' = tok)) :
    dictGet2? (bumpAmt m a tok amt) a' tok' = dictGet2? m a' tok' := by
  by_cases ha : a' = a
  · subst ha
    have ht : tok' ≠ tok := fun hh => h ⟨rfl, hh⟩
    cases hma : dictGet? m a' with
    | none =>
        simp only [dictGet2?, bumpAmt, hma, Option.getD_none, dictGet?_dictSet_self,
          dictGet?_dictSet_ne _ tok tok' _ ht]
        simp [dictGet?]
    | some inner =>
        simp only [dictGet2?, bumpAmt, hma, Option.getD_some, dictGet?_dictSet_self,
          dictGet?_dictSet_ne _ tok tok' _ ht]
  · simp [dictGet2?, bumpAmt, dictGet?_dictSet_ne _ _ _ _ ha]

theorem dictGet2?_foldl_genStep (thr : List (String × ℚ)) (key : TransferEvent → String)
    (evs : List TransferEvent) (a tok : String) :
    ∀ m : SumMap, dictGet2? (evs.foldl (genStep thr key) m) a tok
      = match dictGet2? m a tok with
        | some v => some (v + accSumKey thr key evs a tok)
        | none =>
            if matchingEvents thr key evs a tok = [] then none
            else some (accSumKey thr key evs a tok) := by
  induction evs with
  | nil =>
      intro m
      cases hv : dictGet2? m a tok <;> simp [hv, accSumKey, matchingEvents]
  | cons e es ih =>
      intro m
      rw [List.foldl_cons]
      by_cases hmon : isTokenMonitored thr e.token = true
      · by_cases hkey : key e = a ∧ e.token = tok
        · obtain ⟨hk1, hk2⟩ := hkey
          have hstep : genStep thr key m e = bumpAmt m a tok e.amount := by
            unfold genStep
            rw [if_pos hmon, hk1, hk2]
          have hm : matchingEvents thr key (e :: es) a tok
              = e :: matchingEvents thr key es a tok := by
            have hmon2 : isTokenMonitored thr tok = true := hk2 ▸ hmon
            have hpred : (isTokenMonitored thr e.token && (key e == a)
                && (e.token == tok)) = true := by
              simp [hmon2, hk1, hk2]
            simp [matchingEvents, List.filter_cons, hpred]
          have hsum : accSumKey thr key (e :: es) a tok
              = e.amount + accSumKey thr key es a tok := by
            simp [accSumKey, hm]
          rw [hstep, ih, dictGet2?_bumpAmt_self]
          cases hv : dictGet2? m a tok with
          | some v => simp [hv, hsum, add_assoc]
          | none => simp [hv, hm, hsum]
        · have hne : ¬(a = key e ∧ tok = e.token) := fun hh => hkey ⟨hh.1.symm, hh.2.symm⟩
          have hstep : genStep thr key m e = bumpAmt m (key e) e.token e.amount := by
            unfold genStep
            rw [if_pos hmon]
          have hpred : (isTokenMonitored thr e.token && (key e == a)
              && (e.token == tok)) = false := by
            rcases not_and_or.mp hkey with hcase | hcase
            · simp [hcase]
            · simp [hcase]
          have hm : matchingEvents thr key (e :: es) a tok
              = matchingEvents thr key es a tok := by
            simp [matchingEvents, List.filter_cons, hpred]
          have hsum : accSumKey thr key (e :: es) a tok = accSumKey thr key es a tok := by
            simp [accSumKey, hm]
          rw [hstep, ih, dictGet2?_bumpAmt_ne _ _ _ _ _ _ hne, hsum, hm]
      · have hmonf : isTokenMonitored thr e.token = false := by simpa using hmon
        have hstep : genStep thr key m e = m := by
          unfold genStep
          rw [if_neg hmon]
        have hpred : (isTokenMonitored thr e.token && (key e == a)
            && (e.token == tok)) = false := by
          simp [hmonf]
        have hm : matchingEvents thr key (e :: es) a tok
            = matchingEvents thr key es a tok := by
          simp [matchingEvents, List.filter_cons, hpred]
        have hsum : accSumKey thr key (e :: es) a tok = accSumKey thr key es a tok := by
          simp [accSumKey, hm]
        rw [hstep, ih, hsum, hm]

theorem dictGet2?_genAccum (thr : List (String × ℚ)) (key : TransferEvent → String)
    (evs : List TransferEvent) (a tok : String) :
    dictGet2? (genAccum thr key evs) a tok
      = if matchingEvents thr key evs a tok = [] then none
        else some (accSumKey thr key evs a tok) := by
  unfold genAccum
  rw [dictGet2?_foldl_genStep]
  rfl

theorem accumulate_eq_genAccum (thr : List (String × ℚ)) (evs : List TransferEvent) :
    accumulate thr evs
      = (genAccum thr TransferEvent.sender evs, genAccum thr TransferEvent.receiver evs) := by
  unfold accumulate genAccum
  suffices h : ∀ m1 m2 : SumMap, evs.foldl
      (fun p ev => if isTokenMonitored thr ev.token then
        (bumpAmt p.1 ev.sender ev.token ev.amount, bumpAmt p.2 ev.receiver ev.token ev.amount)
      else p) (m1, m2)
      = (evs.foldl (genStep thr TransferEvent.sender) m1,
         evs.foldl (genStep thr TransferEvent.receiver) m2) by
    exact h [] []
  induction evs with
  | nil => intro m1 m2; rfl
  | cons e es ih =>
      intro m1 m2
      rw [List.foldl_cons, List.foldl_cons, List.foldl_cons]
      by_cases hmon : isTokenMonitored thr e.token = true
      · rw [if_pos hmon]
        simp only [genStep, if_pos hmon]
        exact ih _ _
      · rw [if_neg hmon]
        simp only [genStep, if_neg hmon]
        exact ih _ _

theorem goodSums_bumpAmt (m : SumMap) (a tok : String) (amt : ℚ)
    (h : GoodSums m) : GoodSums (bumpAmt m a tok amt) := by
  obtain ⟨hout, hin⟩ := h
  constructor
  · exact keysNodup_dictSet _ _ _ hout
  · intro p hp
    rcases mem_dictSet _ _ _ _ hp with h1 | h1
    · exact hin p h1
    · rw [h1]
      cases hma : dictGet? m a with
      | none => simp [hma, KeysNodup, dictSet]
      | some inner =>
          simp only [hma, Option.getD_some]
          exact keysNodup_dictSet _ _ _ (hin (a, inner) (mem_of_dictGet?_eq_some _ _ _ hma))

theorem goodSums_genAccum (thr : List (String × ℚ)) (key : TransferEvent → String)
    (evs : List TransferEvent) : GoodSums (genAccum thr key evs) := by
  unfold genAccum
  suffices h : ∀ m, GoodSums m → GoodSums (evs.foldl (genStep thr key) m) by
    exact h [] ⟨by simp [KeysNodup], by simp⟩
  induction evs with
  | nil => intro m hm; exact hm
  | cons e es ih =>
      intro m hm
      rw [List.foldl_cons]
      apply ih
      unfold genStep
      by_cases hmon : isTokenMonitored thr e.token = true
      · rw [if_pos hmon]
        exact goodSums_bumpAmt _ _ _ _ hm
      · rw [if_neg hmon]
        exact hm

theorem mem_exceedsOf (thr : List (String × ℚ)) (role : Role) (sums : SumMap) (x : Exceed) :
    x ∈ exceedsOf thr role sums ↔
      ∃ a inner tok amt θ, (a, inner) ∈ sums ∧ (tok, amt) ∈ inner ∧
        whaleThresholdFor thr tok = some θ ∧ θ ≤ amt ∧
        x = (role, a, tok, amt, θ) := by
  unfold exceedsOf
  rw [List.mem_flatMap]
  constructor
  · rintro ⟨p, hp, hx⟩
    rw [List.mem_filterMap] at hx
    obtain ⟨q, hq, hfq⟩ := hx
    cases hθ : whaleThresholdFor thr q.1 with
    | none =>
        simp only [hθ] at hfq
        cases hfq
    | some θ =>
        simp only [hθ] at hfq
        by_cases hle : θ ≤ q.2
        · rw [if_pos hle] at hfq
          refine ⟨p.1, p.2, q.1, q.2, θ, by simpa using hp, by simpa using hq,
            hθ, hle, (Option.some.inj hfq).symm⟩
        · rw [if_neg hle] at hfq; cases hfq
  · rintro ⟨a, inner, tok, amt, θ, hmem, hq, hθ, hle, rfl⟩
    refine ⟨(a, inner), hmem, ?_⟩
    rw [List.mem_filterMap]
    refine ⟨(tok, amt), hq, ?_⟩
    simp [hθ, hle]

/-- Characterisation of the breach tuples one role's scan produces from its
accumulated map: every tuple of key `(a, tok)` carries the window sum and the
configured threshold and satisfies the `>=` comparison, and conversely a sum
reaching a positive threshold is always reported. -/
theorem exceeds_genAccum_char (thr : List (String × ℚ)) (role : Role)
    (key : TransferEvent → String) (evs : List TransferEvent) (a tok : String) (θ : ℚ)
    (hθ : whaleThresholdFor thr tok = some θ) (hpos : 0 < θ) :
    (∀ role' amt θ', (role', a, tok, amt, θ') ∈ exceedsOf thr role (genAccum thr key evs) →
      role' = role ∧ amt = accSumKey thr key evs a tok ∧ θ' = θ ∧ θ' ≤ amt) ∧
    ((role, a, tok, accSumKey thr key evs a tok, θ)
        ∈ exceedsOf thr role (genAccum thr key evs)
      ↔ θ ≤ accSumKey thr key evs a tok) := by
  have hgood := goodSums_genAccum thr key evs
  have part2 : ∀ role' amt θ',
      (role', a, tok, amt, θ') ∈ exceedsOf thr role (genAccum thr key evs) →
      role' = role ∧ amt = accSumKey thr key evs a tok ∧ θ' = θ ∧ θ' ≤ amt := by
    intro role' amt θ' hmem
    rw [mem_exceedsOf] at hmem
    obtain ⟨a', inner, tok', amt', θ'', hmemo, hmemi, hθ2, hle, hx⟩ := hmem
    obtain ⟨hr, ha, ht, hm, hh⟩ : role' = role ∧ a = a' ∧ tok = tok' ∧ amt = amt' ∧ θ' = θ'' := by
      simpa [Prod.ext_iff] using hx
    subst ha
    subst ht
    subst hm
    subst hh
    have hout : dictGet? (genAccum thr key evs) a = some inner :=
      dictGet?_eq_some_of_mem _ _ _ hgood.1 hmemo
    have hinn : dictGet? inner tok = some amt :=
      dictGet?_eq_some_of_mem _ _ _ (hgood.2 (a, inner) hmemo) hmemi
    have hlk : dictGet2? (genAccum thr key evs) a tok = some amt := by
      simp [dictGet2?, hout, hinn]
    rw [dictGet2?_genAccum] at hlk
    by_cases hnil : matchingEvents thr key evs a tok = []
    · rw [if_pos hnil] at hlk
      cases hlk
    · rw [if_neg hnil] at hlk
      have hamt : amt = accSumKey thr key evs a tok := (Option.some.inj hlk).symm
      have hθeq : θ' = θ := Option.some.inj (hθ2.symm.trans hθ)
      exact ⟨hr, hamt, hθeq, hle⟩
  refine ⟨part2, ?_, ?_⟩
  · intro hmem
    exact (part2 role _ θ hmem).2.2.2
  · intro hle
    have hSne : accSumKey thr key evs a tok ≠ 0 := by
      intro h0
      rw [h0] at hle
      linarith
    have hmne : matchingEvents thr key evs a tok ≠ [] := by
      intro hnil
      apply hSne
      simp [accSumKey, hnil]
    have hlk : dictGet2? (genAccum thr key evs) a tok
        = some (accSumKey thr key evs a tok) := by
      rw [dictGet2?_genAccum, if_neg hmne]
    cases hout : dictGet? (genAccum thr key evs) a with
    | none =>
        rw [dictGet2?, hout] at hlk
        cases hlk
    | some inner =>
        have hinn : dictGet? inner tok = some (accSumKey thr key evs a tok) := by
          rw [dictGet2?, hout] at hlk
          exact hlk
        rw [mem_exceedsOf]
        exact ⟨a, inner, tok, accSumKey thr key evs a tok, θ,
          mem_of_dictGet?_eq_some _ _ _ hout, mem_of_dictGet?_eq_some _ _ _ hinn,
          hθ, hle, rfl⟩

/-- C6.  Threshold boundary: `compute` applies `windowOut` to each pruned
window, and for a monitored token with a positive configured threshold a
breach tuple for `(role, address, token)` is emitted if and only if that
address's accumulated window sum for the token, under that role, is `>=` the
threshold (so a sum exactly equal to the threshold is a breach and any
smaller sum, one unit below included, is not); every emitted tuple carries
exactly the accumulated sum and the configured threshold. -/
theorem threshold_boundary (thr : List (String × ℚ)) (evs : List TransferEvent)
    (a tok : String) (θ : ℚ) (d : DetectorState) (c : String) (t : Int)
    (hθ : whaleThresholdFor thr tok = some θ) (hpos : 0 < θ) :
    (computeSenderReceiverAccumulated d c t).2
      = WINDOWS.map (fun w => (w, windowOut d.tokenThresholds
          (eventsFor ((getState d c).pruneOld t) w))) ∧
    ((Role.sender, a, tok, accSumKey thr TransferEvent.sender evs a tok, θ)
        ∈ (windowOut thr evs).exceeds
      ↔ θ ≤ accSumKey thr TransferEvent.sender evs a tok) ∧
    ((Role.receiver, a, tok, accSumKey thr TransferEvent.receiver evs a tok, θ)
        ∈ (windowOut thr evs).exceeds
      ↔ θ ≤ accSumKey thr TransferEvent.receiver evs a tok) ∧
    (∀ amt θ', (Role.sender, a, tok, amt, θ') ∈ (windowOut thr evs).exceeds →
      amt = accSumKey thr TransferEvent.sender evs a tok ∧ θ' = θ) ∧
    (∀ amt θ', (Role.receiver, a, tok, amt, θ') ∈ (windowOut thr evs).exceeds →
      amt = accSumKey thr TransferEvent.receiver evs a tok ∧ θ' = θ) := by
  have hs := exceeds_genAccum_char thr Role.sender TransferEvent.sender evs a tok θ hθ hpos
  have hr := exceeds_genAccum_char thr Role.receiver TransferEvent.receiver evs a tok θ hθ hpos
  have hw : (windowOut thr evs).exceeds
      = exceedsOf thr Role.sender (genAccum thr TransferEvent.sender evs)
        ++ exceedsOf thr Role.receiver (genAccum thr TransferEvent.receiver evs) := by
    unfold windowOut
    rw [accumulate_eq_genAccum]
  refine ⟨rfl, ?_, ?_, ?_, ?_⟩
  · rw [hw, List.mem_append]
    constructor
    · rintro (h | h)
      · exact hs.2.mp h
      · exact absurd (hr.1 Role.sender _ _ h).1 (by decide)
    · intro hle
      exact Or.inl (hs.2.mpr hle)
  · rw [hw, List.mem_append]
    constructor
    · rintro (h | h)
      · exact absurd (hs.1 Role.receiver _ _ h).1 (by decide)
      · exact hr.2.mp h
    · intro hle
      exact Or.inr (hr.2.mpr hle)
  · intro amt θ' h
    rw [hw, List.mem_append] at h
    rcases h with h | h
    · exact ⟨(hs.1 Role.sender amt θ' h).2.1, (hs.1 Role.sender amt θ' h).2.2.1⟩
    · exact absurd (hr.1 Role.sender amt θ' h).1 (by decide)
  · intro amt θ' h
    rw [hw, List.mem_append] at h
    rcases h with h | h
    · exact absurd (hs.1 Role.receiver amt θ' h).1 (by decide)
    · exact ⟨(hr.1 Role.receiver amt θ' h).2.1, (hr.1 Role.receiver amt θ' h).2.2.1⟩

/-- Witness for `threshold_boundary`: three 400-unit transfers from "0xa"
against threshold 1000. -/
theorem threshold_boundary_witness :
    whaleThresholdFor [("0xt", 1000)] "0xt" = some 1000 ∧ (0 : ℚ) < 1000 ∧
    ((computeSenderReceiverAccumulated ⟨[("0xt", 1000)], 3600, [], []⟩ "0xc" 50).2
      = WINDOWS.map (fun w => (w, windowOut
          (⟨[("0xt", 1000)], 3600, [], []⟩ : DetectorState).tokenThresholds
          (eventsFor ((getState ⟨[("0xt", 1000)], 3600, [], []⟩ "0xc").pruneOld 50) w))) ∧
    ((Role.sender, "0xa", "0xt",
        accSumKey [("0xt", 1000)] TransferEvent.sender
          [⟨10, "0xa", "0xc", "0xt", 400⟩, ⟨20, "0xa", "0xc", "0xt", 400⟩,
           ⟨30, "0xa", "0xc", "0xt", 400⟩] "0xa" "0xt", 1000)
        ∈ (windowOut [("0xt", 1000)]
            [⟨10, "0xa", "0xc", "0xt", 400⟩, ⟨20, "0xa", "0xc", "0xt", 400⟩,
             ⟨30, "0xa", "0xc", "0xt", 400⟩]).exceeds
      ↔ (1000 : ℚ) ≤ accSumKey [("0xt", 1000)] TransferEvent.sender
          [⟨10, "0xa", "0xc", "0xt", 400⟩, ⟨20, "0xa", "0xc", "0xt", 400⟩,
           ⟨30, "0xa", "0xc", "0xt", 400⟩] "0xa" "0xt") ∧
    ((Role.receiver, "0xa", "0xt",
        accSumKey [("0xt", 1000)] TransferEvent.receiver
          [⟨10, "0xa", "0xc", "0xt", 400⟩, ⟨20, "0xa", "0xc", "0xt", 400⟩,
           ⟨30, "0xa", "0xc", "0xt", 400⟩] "0xa" "0xt", 1000)
        ∈ (windowOut [("0xt", 1000)]
            [⟨10, "0xa", "0xc", "0xt", 400⟩, ⟨20, "0xa", "0xc", "0xt", 400⟩,
             ⟨30, "0xa", "0xc", "0xt", 400⟩]).exceeds
      ↔ (1000 : ℚ) ≤ accSumKey [("0xt", 1000)] TransferEvent.receiver
          [⟨10, "0xa", "0xc", "0xt", 400⟩, ⟨20, "0xa", "0xc", "0xt", 400⟩,
           ⟨30, "0xa", "0xc", "0xt", 400⟩] "0xa" "0xt") ∧
    (∀ amt θ', (Role.sender, "0xa", "0xt", amt, θ')
        ∈ (windowOut [("0xt", 1000)]
            [⟨10, "0xa", "0xc", "0xt", 400⟩, ⟨20, "0xa", "0xc", "0xt", 400⟩,
             ⟨30, "0xa", "0xc", "0xt", 400⟩]).exceeds →
      amt = accSumKey [("0xt", 1000)] TransferEvent.sender
          [⟨10, "0xa", "0xc", "0xt", 400⟩, ⟨20, "0xa", "0xc", "0xt", 400⟩,
           ⟨30, "0xa", "0xc", "0xt", 400⟩] "0xa" "0xt" ∧ θ' = 1000) ∧
    (∀ amt θ', (Role.receiver, "0xa", "0xt", amt, θ')
        ∈ (windowOut [("0xt", 1000)]
            [⟨10, "0xa", "0xc", "0xt", 400⟩, ⟨20, "0xa", "0xc", "0xt", 400⟩,
             ⟨30, "0xa", "0xc", "0xt", 400⟩]).exceeds →
      amt = accSumKey [("0xt", 1000)] TransferEvent.receiver
          [⟨10, "0xa", "0xc", "0xt", 400⟩, ⟨20, "0xa", "0xc", "0xt", 400⟩,
           ⟨30, "0xa", "0xc", "0xt", 400⟩] "0xa" "0xt" ∧ θ' = 1000)) :=
  ⟨by decide, by decide,
    threshold_boundary [("0xt", 1000)]
      [⟨10, "0xa", "0xc", "0xt", 400⟩, ⟨20, "0xa", "0xc", "0xt", 400⟩,
       ⟨30, "0xa", "0xc", "0xt", 400⟩] "0xa" "0xt" 1000
      ⟨[("0xt", 1000)], 3600, [], []⟩ "0xc" 50 (by decide) (by decide)⟩

end Monitor
